import Mathlib

/-!
Verification development for the map-prep three-block topographic design engine.

The generation engine (GeometryStore, SpatialIndex, BlockPartitioner,
ContourClipper, PaletteCatalog, Renderer, BatchOrchestrator) is embedded
shallowly: planar coordinates are rationals, contour geometry is a list of
line segments, and each pipeline stage is a total Lean function returning
`Except DesignError` where the stage can fail.
-/

namespace MapPrep

/-- A planar point with rational coordinates. -/
structure Pt where
  x : ℚ
  y : ℚ
deriving DecidableEq, Repr

/-- An axis-aligned rectangle (also used for the overall extent). -/
structure Rect where
  minx : ℚ
  miny : ℚ
  maxx : ℚ
  maxy : ℚ
deriving DecidableEq, Repr

/-- One straight segment of a contour polyline. -/
structure Seg where
  a : Pt
  b : Pt
deriving DecidableEq, Repr

/-- The point of segment `s` at parameter `t` (t = 0 is `s.a`, t = 1 is `s.b`). -/
def pointAt (s : Seg) (t : ℚ) : Pt :=
  ⟨s.a.x + t * (s.b.x - s.a.x), s.a.y + t * (s.b.y - s.a.y)⟩

/-- Closed rectangle membership. -/
def inRect (r : Rect) (p : Pt) : Prop :=
  r.minx ≤ p.x ∧ p.x ≤ r.maxx ∧ r.miny ≤ p.y ∧ p.y ≤ r.maxy

instance (r : Rect) (p : Pt) : Decidable (inRect r p) := by
  unfold inRect; infer_instance

/-- Modelled from the spec: one axis of exact-intersection truncation
(ContourClipper, §4.4; the source module `topo-blocks/main.py` is not part of
the provided sources).  Intersects the parameter interval `I` with the set of
parameters `t` for which `lo ≤ p + t * d ≤ hi`. -/
def slabClip (p d lo hi : ℚ) (I : ℚ × ℚ) : Option (ℚ × ℚ) :=
  if d = 0 then
    (if lo ≤ p ∧ p ≤ hi then some I else none)
  else if 0 < d then
    (if max I.1 ((lo - p) / d) ≤ min I.2 ((hi - p) / d) then
      some (max I.1 ((lo - p) / d), min I.2 ((hi - p) / d)) else none)
  else
    (if max I.1 ((hi - p) / d) ≤ min I.2 ((lo - p) / d) then
      some (max I.1 ((hi - p) / d), min I.2 ((lo - p) / d)) else none)

lemma slab_iff_pos (p d lo hi t : ℚ) (hd : 0 < d) :
    (lo - p) / d ≤ t ∧ t ≤ (hi - p) / d ↔ lo ≤ p + t * d ∧ p + t * d ≤ hi := by
  rw [div_le_iff₀ hd, le_div_iff₀ hd]
  constructor <;> intro h <;> constructor <;> nlinarith [h.1, h.2]

lemma slab_iff_neg (p d lo hi t : ℚ) (hd : d < 0) :
    (hi - p) / d ≤ t ∧ t ≤ (lo - p) / d ↔ lo ≤ p + t * d ∧ p + t * d ≤ hi := by
  rw [div_le_iff_of_neg hd, le_div_iff_of_neg hd]
  constructor <;> intro h <;> constructor <;> nlinarith [h.1, h.2]

lemma slabClip_some_iff (p d lo hi : ℚ) (I J : ℚ × ℚ)
    (h : slabClip p d lo hi I = some J) (t : ℚ) :
    J.1 ≤ t ∧ t ≤ J.2 ↔ I.1 ≤ t ∧ t ≤ I.2 ∧ lo ≤ p + t * d ∧ p + t * d ≤ hi := by
  unfold slabClip at h
  split_ifs at h with h0 h1 h2 h3 h4
  · have hpt : p + t * d = p := by rw [h0]; ring
    cases h
    rw [hpt]
    tauto
  · cases h
    dsimp only
    rw [max_le_iff, le_min_iff]
    have := slab_iff_pos p d lo hi t h2
    tauto
  · cases h
    dsimp only
    rw [max_le_iff, le_min_iff]
    have hd : d < 0 := lt_of_le_of_ne (not_lt.mp h2) h0
    have := slab_iff_neg p d lo hi t hd
    tauto

lemma slabClip_some_le (p d lo hi : ℚ) (I J : ℚ × ℚ) (hI : I.1 ≤ I.2)
    (h : slabClip p d lo hi I = some J) : J.1 ≤ J.2 := by
  unfold slabClip at h
  split_ifs at h <;> cases h <;> assumption

lemma slabClip_none_iff (p d lo hi : ℚ) (I : ℚ × ℚ)
    (h : slabClip p d lo hi I = none) (t : ℚ) :
    ¬ (I.1 ≤ t ∧ t ≤ I.2 ∧ lo ≤ p + t * d ∧ p + t * d ≤ hi) := by
  unfold slabClip at h
  split_ifs at h with h0 h1 h2 h3 h4
  · have hpt : p + t * d = p := by rw [h0]; ring
    rw [hpt]
    tauto
  · rintro ⟨ha, hb, hc, hd⟩
    have hx := (slab_iff_pos p d lo hi t h2).mpr ⟨hc, hd⟩
    exact h3 (le_trans (max_le ha hx.1) (le_min hb hx.2))
  · rintro ⟨ha, hb, hc, hd⟩
    have hdneg : d < 0 := lt_of_le_of_ne (not_lt.mp h2) h0
    have hx := (slab_iff_neg p d lo hi t hdneg).mpr ⟨hc, hd⟩
    exact h4 (le_trans (max_le ha hx.1) (le_min hb hx.2))

/-- Modelled from the spec: exact-intersection truncation of one contour
segment to a region rectangle (ContourClipper, §4.4 and §9: "keep every
in-region portion of a geometry, split at the boundary"; the source module
`topo-blocks/main.py` is not part of the provided sources).  Returns the
sub-segment of `s` lying inside `r`, or `none` when `s` misses `r`. -/
def clipSeg (r : Rect) (s : Seg) : Option Seg :=
  (slabClip s.a.x (s.b.x - s.a.x) r.minx r.maxx (0, 1)).bind (fun I =>
    (slabClip s.a.y (s.b.y - s.a.y) r.miny r.maxy I).map (fun J =>
      ⟨pointAt s J.1, pointAt s J.2⟩))

lemma inRect_pointAt_iff (r : Rect) (s : Seg) (t : ℚ) :
    inRect r (pointAt s t) ↔
      (r.minx ≤ s.a.x + t * (s.b.x - s.a.x) ∧ s.a.x + t * (s.b.x - s.a.x) ≤ r.maxx) ∧
      (r.miny ≤ s.a.y + t * (s.b.y - s.a.y) ∧ s.a.y + t * (s.b.y - s.a.y) ≤ r.maxy) := by
  unfold inRect pointAt
  tauto

lemma clipSeg_some_spec (r : Rect) (s s' : Seg) (h : clipSeg r s = some s') :
    ∃ J : ℚ × ℚ, s' = ⟨pointAt s J.1, pointAt s J.2⟩ ∧ 0 ≤ J.1 ∧ J.1 ≤ J.2 ∧ J.2 ≤ 1 ∧
      ∀ t, (J.1 ≤ t ∧ t ≤ J.2) ↔ (0 ≤ t ∧ t ≤ 1 ∧ inRect r (pointAt s t)) := by
  unfold clipSeg at h
  rw [Option.bind_eq_some] at h
  obtain ⟨I, hx, h⟩ := h
  rw [Option.map_eq_some'] at h
  obtain ⟨J, hy, hs⟩ := h
  have hI2 : I.1 ≤ I.2 := slabClip_some_le _ _ _ _ _ _ (by norm_num) hx
  have hJ2 : J.1 ≤ J.2 := slabClip_some_le _ _ _ _ _ _ hI2 hy
  have hchar : ∀ t, (J.1 ≤ t ∧ t ≤ J.2) ↔ (0 ≤ t ∧ t ≤ 1 ∧ inRect r (pointAt s t)) := by
    intro t
    have cx := slabClip_some_iff _ _ _ _ _ _ hx t
    have cy := slabClip_some_iff _ _ _ _ _ _ hy t
    rw [inRect_pointAt_iff]
    rw [cy]
    constructor
    · rintro ⟨hc1, hc2, hc3, hc4⟩
      have := cx.mp ⟨hc1, hc2⟩
      tauto
    · rintro ⟨h0, h1, hxcond, hycond⟩
      have : I.1 ≤ t ∧ t ≤ I.2 := cx.mpr ⟨h0, h1, hxcond⟩
      tauto
  refine ⟨J, hs.symm, ?_, hJ2, ?_, hchar⟩
  · exact ((hchar J.1).mp ⟨le_refl _, hJ2⟩).1
  · exact ((hchar J.2).mp ⟨hJ2, le_refl _⟩).2.1

lemma clipSeg_none_spec (r : Rect) (s : Seg) (h : clipSeg r s = none)
    (t : ℚ) (h0 : 0 ≤ t) (h1 : t ≤ 1) : ¬ inRect r (pointAt s t) := by
  intro hin
  rw [inRect_pointAt_iff] at hin
  unfold clipSeg at h
  cases hx : slabClip s.a.x (s.b.x - s.a.x) r.minx r.maxx (0, 1) with
  | none =>
    exact slabClip_none_iff _ _ _ _ _ hx t ⟨h0, h1, hin.1.1, hin.1.2⟩
  | some I =>
    rw [hx] at h
    simp only [Option.some_bind] at h
    rw [Option.map_eq_none'] at h
    have hIt : I.1 ≤ t ∧ t ≤ I.2 :=
      (slabClip_some_iff _ _ _ _ _ _ hx t).mpr ⟨h0, h1, hin.1.1, hin.1.2⟩
    exact slabClip_none_iff _ _ _ _ _ h t ⟨hIt.1, hIt.2, hin.2.1, hin.2.2⟩

lemma clipSeg_isSome_of_mem (r : Rect) (s : Seg) (t : ℚ)
    (h0 : 0 ≤ t) (h1 : t ≤ 1) (hin : inRect r (pointAt s t)) :
    ∃ s', clipSeg r s = some s' := by
  cases hcs : clipSeg r s with
  | none => exact absurd hin (clipSeg_none_spec r s hcs t h0 h1)
  | some s' => exact ⟨s', rfl⟩

lemma clipSeg_some_point_mem (r : Rect) (s s' : Seg) (h : clipSeg r s = some s') :
    ∃ t, 0 ≤ t ∧ t ≤ 1 ∧ inRect r (pointAt s t) := by
  obtain ⟨J, _, hJ0, hJ12, hJ1, hchar⟩ := clipSeg_some_spec r s s' h
  obtain ⟨h0, h1, hin⟩ := (hchar J.1).mp ⟨le_refl _, hJ12⟩
  exact ⟨J.1, h0, h1, hin⟩

lemma clipSeg_eq_none (r : Rect) (s : Seg)
    (h : ∀ t, 0 ≤ t → t ≤ 1 → ¬ inRect r (pointAt s t)) : clipSeg r s = none := by
  cases hc : clipSeg r s with
  | none => rfl
  | some s' =>
    obtain ⟨t, h0, h1, hin⟩ := clipSeg_some_point_mem r s s' hc
    exact absurd hin (h t h0 h1)

lemma slabClip_full (p d lo hi : ℚ) (h1 : lo ≤ p) (h2 : p ≤ hi)
    (h3 : lo ≤ p + d) (h4 : p + d ≤ hi) : slabClip p d lo hi (0, 1) = some (0, 1) := by
  unfold slabClip
  split_ifs with h0 hcond hpos hle hle2
  · rfl
  · exact absurd ⟨h1, h2⟩ hcond
  · dsimp only at hle ⊢
    have e1 : max (0 : ℚ) ((lo - p) / d) = 0 :=
      max_eq_left (div_nonpos_of_nonpos_of_nonneg (by linarith) (le_of_lt hpos))
    have e2 : min (1 : ℚ) ((hi - p) / d) = 1 :=
      min_eq_left ((le_div_iff₀ hpos).mpr (by linarith))
    rw [e1, e2]
  · exfalso
    apply hle
    dsimp only
    have e1 : max (0 : ℚ) ((lo - p) / d) = 0 :=
      max_eq_left (div_nonpos_of_nonpos_of_nonneg (by linarith) (le_of_lt hpos))
    have e2 : min (1 : ℚ) ((hi - p) / d) = 1 :=
      min_eq_left ((le_div_iff₀ hpos).mpr (by linarith))
    rw [e1, e2]
    norm_num
  · dsimp only at hle2 ⊢
    have hdneg : d < 0 := lt_of_le_of_ne (not_lt.mp hpos) h0
    have e1 : max (0 : ℚ) ((hi - p) / d) = 0 :=
      max_eq_left (div_nonpos_of_nonneg_of_nonpos (by linarith) (le_of_lt hdneg))
    have e2 : min (1 : ℚ) ((lo - p) / d) = 1 :=
      min_eq_left ((le_div_iff_of_neg hdneg).mpr (by linarith))
    rw [e1, e2]
  · exfalso
    apply hle2
    dsimp only
    have hdneg : d < 0 := lt_of_le_of_ne (not_lt.mp hpos) h0
    have e1 : max (0 : ℚ) ((hi - p) / d) = 0 :=
      max_eq_left (div_nonpos_of_nonneg_of_nonpos (by linarith) (le_of_lt hdneg))
    have e2 : min (1 : ℚ) ((lo - p) / d) = 1 :=
      min_eq_left ((le_div_iff_of_neg hdneg).mpr (by linarith))
    rw [e1, e2]
    norm_num

lemma pointAt_zero (s : Seg) : pointAt s 0 = s.a := by
  simp [pointAt]

lemma pointAt_one (s : Seg) : pointAt s 1 = s.b := by
  simp [pointAt]

/-- A geometry whose endpoints both lie in a region is clipped to itself:
truncation returns it unchanged. -/
lemma clipSeg_of_inside (r : Rect) (s : Seg) (ha : inRect r s.a) (hb : inRect r s.b) :
    clipSeg r s = some s := by
  obtain ⟨ha1, ha2, ha3, ha4⟩ := ha
  obtain ⟨hb1, hb2, hb3, hb4⟩ := hb
  have hx : slabClip s.a.x (s.b.x - s.a.x) r.minx r.maxx (0, 1) = some (0, 1) :=
    slabClip_full _ _ _ _ ha1 ha2 (by linarith) (by linarith)
  have hy : slabClip s.a.y (s.b.y - s.a.y) r.miny r.maxy (0, 1) = some (0, 1) :=
    slabClip_full _ _ _ _ ha3 ha4 (by linarith) (by linarith)
  unfold clipSeg
  rw [hx, Option.some_bind, hy, Option.map_some']
  rw [show ((0 : ℚ), (1 : ℚ)).1 = (0 : ℚ) from rfl, show ((0 : ℚ), (1 : ℚ)).2 = (1 : ℚ) from rfl]
  rw [pointAt_zero, pointAt_one]

/-- `p` lies on segment `s` (as a point set). -/
def onSeg (s : Seg) (p : Pt) : Prop := ∃ u, 0 ≤ u ∧ u ≤ 1 ∧ pointAt s u = p

lemma pointAt_pointAt (s : Seg) (c1 c2 u : ℚ) :
    pointAt ⟨pointAt s c1, pointAt s c2⟩ u = pointAt s (c1 + u * (c2 - c1)) := by
  unfold pointAt
  simp only [Pt.mk.injEq]
  constructor <;> ring

/-- Pointwise reconstruction: a parameter-`t` point of the original segment lies
in the region rectangle exactly when it lies on the clipped output segment. -/
lemma mem_clip_iff (r : Rect) (s : Seg) (t : ℚ) (h0 : 0 ≤ t) (h1 : t ≤ 1) :
    inRect r (pointAt s t) ↔ ∃ s', clipSeg r s = some s' ∧ onSeg s' (pointAt s t) := by
  constructor
  · intro hin
    obtain ⟨s', hc⟩ := clipSeg_isSome_of_mem r s t h0 h1 hin
    refine ⟨s', hc, ?_⟩
    obtain ⟨J, hs', hJ0, hJ12, hJ1, hchar⟩ := clipSeg_some_spec r s s' hc
    have hJt : J.1 ≤ t ∧ t ≤ J.2 := (hchar t).mpr ⟨h0, h1, hin⟩
    subst hs'
    by_cases hdeg : J.1 = J.2
    · have ht : J.1 = t := le_antisymm hJt.1 (hdeg ▸ hJt.2)
      refine ⟨0, le_refl 0, by norm_num, ?_⟩
      rw [pointAt_pointAt, show J.1 + 0 * (J.2 - J.1) = t by rw [← ht]; ring]
    · have hlt : J.1 < J.2 := lt_of_le_of_ne hJ12 hdeg
      have hd2 : (0 : ℚ) < J.2 - J.1 := by linarith
      refine ⟨(t - J.1) / (J.2 - J.1), div_nonneg (by linarith) (le_of_lt hd2), ?_, ?_⟩
      · rw [div_le_one hd2]; linarith
      · rw [pointAt_pointAt, div_mul_cancel₀ _ (ne_of_gt hd2),
          show J.1 + (t - J.1) = t by ring]
  · rintro ⟨s', hc, u, hu0, hu1, hup⟩
    obtain ⟨J, hs', hJ0, hJ12, hJ1, hchar⟩ := clipSeg_some_spec r s s' hc
    subst hs'
    rw [pointAt_pointAt] at hup
    have hJt2 : J.1 ≤ J.1 + u * (J.2 - J.1) ∧ J.1 + u * (J.2 - J.1) ≤ J.2 := by
      constructor <;> nlinarith
    have hmem := (hchar (J.1 + u * (J.2 - J.1))).mp hJt2
    rw [← hup]
    exact hmem.2.2

/-- A rectangle contains every point of a segment whose endpoints it contains. -/
lemma rect_convex (r : Rect) (s : Seg) (ha : inRect r s.a) (hb : inRect r s.b)
    (t : ℚ) (h0 : 0 ≤ t) (h1 : t ≤ 1) : inRect r (pointAt s t) := by
  obtain ⟨ha1, ha2, ha3, ha4⟩ := ha
  obtain ⟨hb1, hb2, hb3, hb4⟩ := hb
  refine ⟨?_, ?_, ?_, ?_⟩
  · show r.minx ≤ s.a.x + t * (s.b.x - s.a.x)
    nlinarith [mul_nonneg (sub_nonneg.mpr h1) (sub_nonneg.mpr ha1),
      mul_nonneg h0 (sub_nonneg.mpr hb1)]
  · show s.a.x + t * (s.b.x - s.a.x) ≤ r.maxx
    nlinarith [mul_nonneg (sub_nonneg.mpr h1) (sub_nonneg.mpr ha2),
      mul_nonneg h0 (sub_nonneg.mpr hb2)]
  · show r.miny ≤ s.a.y + t * (s.b.y - s.a.y)
    nlinarith [mul_nonneg (sub_nonneg.mpr h1) (sub_nonneg.mpr ha3),
      mul_nonneg h0 (sub_nonneg.mpr hb3)]
  · show s.a.y + t * (s.b.y - s.a.y) ≤ r.maxy
    nlinarith [mul_nonneg (sub_nonneg.mpr h1) (sub_nonneg.mpr ha4),
      mul_nonneg h0 (sub_nonneg.mpr hb4)]

/-- Bounding box of a single contour segment. -/
def bbox (s : Seg) : Rect :=
  ⟨min s.a.x s.b.x, min s.a.y s.b.y, max s.a.x s.b.x, max s.a.y s.b.y⟩

lemma inRect_bbox_a (s : Seg) : inRect (bbox s) s.a :=
  ⟨min_le_left _ _, le_max_left _ _, min_le_left _ _, le_max_left _ _⟩

lemma inRect_bbox_b (s : Seg) : inRect (bbox s) s.b :=
  ⟨min_le_right _ _, le_max_right _ _, min_le_right _ _, le_max_right _ _⟩

/-- Closed axis-aligned rectangle intersection test (touching counts). -/
def rectsIntersect (a b : Rect) : Bool :=
  decide (a.minx ≤ b.maxx) && decide (b.minx ≤ a.maxx) &&
    decide (a.miny ≤ b.maxy) && decide (b.miny ≤ a.maxy)

lemma rectsIntersect_of_common (a b : Rect) (p : Pt)
    (hpa : inRect a p) (hpb : inRect b p) : rectsIntersect a b = true := by
  obtain ⟨h1, h2, h3, h4⟩ := hpa
  obtain ⟨h5, h6, h7, h8⟩ := hpb
  simp only [rectsIntersect, Bool.and_eq_true, decide_eq_true_eq]
  exact ⟨⟨⟨by linarith, by linarith⟩, by linarith⟩, by linarith⟩

/-- Modelled from the spec: SpatialIndex (§4.2; the source module
`topo-blocks/main.py` is not part of the provided sources).  Stores each
geometry handle with its bounding box; `query` returns every stored geometry
whose bounding box intersects the query rectangle. -/
structure SpatialIndex where
  entries : List (Seg × Rect)
deriving DecidableEq, Repr

def buildIndex (segs : List Seg) : SpatialIndex :=
  ⟨segs.map (fun s => (s, bbox s))⟩

def SpatialIndex.query (idx : SpatialIndex) (r : Rect) : List Seg :=
  (idx.entries.filter (fun en => rectsIntersect r en.2)).map (fun en => en.1)

/-- Exact geometric intersection test between a rectangle and a segment. -/
def segIntersects (r : Rect) (s : Seg) : Bool := (clipSeg r s).isSome

lemma query_buildIndex (segs : List Seg) (r : Rect) :
    (buildIndex segs).query r = segs.filter (fun s => rectsIntersect r (bbox s)) := by
  induction segs with
  | nil => rfl
  | cons s rest ih =>
    simp only [buildIndex, SpatialIndex.query, List.map_cons, List.filter_cons] at ih ⊢
    by_cases hs : rectsIntersect r (bbox s) = true <;> simp [hs, ih]

lemma segIntersects_imp_bbox (r : Rect) (s : Seg) (h : segIntersects r s = true) :
    rectsIntersect r (bbox s) = true := by
  unfold segIntersects at h
  rw [Option.isSome_iff_exists] at h
  obtain ⟨s', hc⟩ := h
  obtain ⟨t, h0, h1, hin⟩ := clipSeg_some_point_mem r s s' hc
  exact rectsIntersect_of_common r (bbox s) (pointAt s t) hin
    (rect_convex (bbox s) s (inRect_bbox_a s) (inRect_bbox_b s) t h0 h1)

/-- Error kinds of the design engine (spec §7). -/
inductive DesignError where
  | missingFile
  | invalidInput
  | invalidBounds
  | invalidConfig
  | invalidPalette
  | unknownPalette
  | renderError
deriving DecidableEq, Repr

/-- Width of each of the three blocks: the extent width minus the two gap bands
(each a fraction `g` of the width) split evenly three ways. -/
def blockW (e : Rect) (g : ℚ) : ℚ := (e.maxx - e.minx) * (1 - 2 * g) / 3

/-- Width of the gap band between two adjacent blocks. -/
def gapW (e : Rect) (g : ℚ) : ℚ := (e.maxx - e.minx) * g

/-- Bounding box of block `i` (i = 0, 1, 2), laid out left to right along the
x axis with a gap band between adjacent blocks. -/
def regionRect (e : Rect) (g : ℚ) (i : ℕ) : Rect :=
  ⟨e.minx + i * (blockW e g + gapW e g), e.miny,
    e.minx + i * (blockW e g + gapW e g) + blockW e g, e.maxy⟩

/-- One of the exactly three sub-rectangles of the overall extent. -/
structure BlockRegion where
  id : ℕ
  rect : Rect
deriving DecidableEq, Repr

/-- Modelled from the spec: BlockPartitioner (§4.3; the source module
`topo-blocks/main.py` is not part of the provided sources).  Rejects a gap
fraction outside [0, 0.5) with `InvalidConfigError` and a degenerate extent
with `InvalidBoundsError`, and otherwise derives the three ordered block
regions. -/
def partitionBlocks (e : Rect) (g : ℚ) : Except DesignError (List BlockRegion) :=
  if ¬ (0 ≤ g ∧ g < 1 / 2) then .error .invalidConfig
  else if e.maxx - e.minx ≤ 0 ∨ e.maxy - e.miny ≤ 0 then .error .invalidBounds
  else .ok ((List.range 3).map (fun i => ⟨i, regionRect e g i⟩))

/-- Area of a rectangle. -/
def rectArea (r : Rect) : ℚ := (r.maxx - r.minx) * (r.maxy - r.miny)

/-- The configured gap area: two gap bands of width `g` times the extent width,
spanning the full extent height. -/
def gapArea (e : Rect) (g : ℚ) : ℚ := 2 * g * rectArea e

/-- Positive-area overlap of two rectangles. -/
def rectOverlap (a b : Rect) : Prop :=
  a.minx < b.maxx ∧ b.minx < a.maxx ∧ a.miny < b.maxy ∧ b.miny < a.maxy

instance (a b : Rect) : Decidable (rectOverlap a b) := by
  unfold rectOverlap; infer_instance

/-- Modelled from the spec: ContourClipper (§4.4; the source module
`topo-blocks/main.py` is not part of the provided sources).  Queries the
spatial index with the region rectangle and truncates each candidate to the
region boundary, dropping candidates that miss the region. -/
def clipRegion (idx : SpatialIndex) (r : Rect) : List Seg :=
  (idx.query r).filterMap (clipSeg r)

/-- The index is only a prefilter: clipping the index candidates gives the same
result as truncating every geometry directly. -/
lemma clipRegion_eq_filterMap (segs : List Seg) (r : Rect) :
    clipRegion (buildIndex segs) r = segs.filterMap (clipSeg r) := by
  unfold clipRegion
  rw [query_buildIndex]
  induction segs with
  | nil => rfl
  | cons s rest ih =>
    rw [List.filter_cons, List.filterMap_cons]
    by_cases hs : rectsIntersect r (bbox s) = true
    · rw [if_pos hs, List.filterMap_cons, ih]
    · rw [if_neg hs, ih]
      have hnone : clipSeg r s = none := by
        cases hc : clipSeg r s with
        | none => rfl
        | some s' =>
          exact absurd (segIntersects_imp_bbox r s (by unfold segIntersects; rw [hc]; rfl)) hs
      rw [hnone]

/-- Modelled from the spec: PaletteCatalog monochrome group (README
"Built-in Color Schemes"; the `black` palette's colors appear in the README's
programmatic-usage example, the remaining color values are not recorded in the
provided sources and are representative hex triples for the described hues). -/
def monochromePalettes : List (String × List String) :=
  [("black", ["#1A1A1A", "#333333", "#4D4D4D"]),
   ("charcoal", ["#4A4A4A", "#6E6E6E", "#8C8C8C"]),
   ("white", ["#E8E8E8", "#F2F2F2", "#FAFAFA"]),
   ("navy", ["#102A43", "#243B53", "#334E68"])]

/-- Modelled from the spec: PaletteCatalog muted earth-tone group. -/
def earthTonePalettes : List (String × List String) :=
  [("desert", ["#C9B79C", "#D8C9AE", "#E5DAC4"]),
   ("clay", ["#B06A4D", "#C07F60", "#CF9575"]),
   ("sage", ["#8A9A7B", "#9DAC8F", "#B0BEA4"]),
   ("stone", ["#7D7F7C", "#939592", "#A9ABA8"])]

/-- Modelled from the spec: PaletteCatalog tetradic complementary group. -/
def tetradicPalettes : List (String × List String) :=
  [("autumn", ["#B5651D", "#8B4513", "#A0522D"]),
   ("forest", ["#2D5A27", "#3E7A35", "#4F9A43"]),
   ("ocean", ["#4F6D7A", "#5D8291", "#6B97A8"]),
   ("burgundy", ["#6D071A", "#85212F", "#9D3B44"])]

/-- Modelled from the spec: PaletteCatalog single-color gradient group. -/
def gradientPalettes : List (String × List String) :=
  [("indigo", ["#2E2A62", "#45418C", "#5C58B6"]),
   ("rust", ["#8C3B1C", "#A84E27", "#C46132"]),
   ("pine", ["#1F4F45", "#2A6A5C", "#358573"]),
   ("plum", ["#4F3244", "#64445A", "#795670"])]

/-- Modelled from the spec: PaletteCatalog (§4.5) as a flat name → colors
registry built from the four conceptual groups. -/
def paletteCatalog : List (String × List String) :=
  monochromePalettes ++ earthTonePalettes ++ tetradicPalettes ++ gradientPalettes

/-- Modelled from the spec: validation of a caller-supplied custom palette
(§4.5): exactly 3 entries or `InvalidPaletteError`. -/
def validateCustomPalette (cols : List String) : Except DesignError (List String) :=
  if cols.length = 3 then .ok cols else .error .invalidPalette

/-- Modelled from the spec: lookup by palette name (§4.5): absent names fail
with `UnknownPaletteError`. -/
def lookupPalette (n : String) : Except DesignError (List String) :=
  match paletteCatalog.find? (fun en => en.1 == n) with
  | some en => .ok en.2
  | none => .error .unknownPalette

/-- Modelled from the spec: DesignRequest (§3; the source module
`topo-blocks/main.py` is not part of the provided sources) — the unit of work
holding the mountain name, the contour set, the palette and the rendering
configuration. -/
structure DesignRequest where
  name : String
  contours : List Seg
  gap : ℚ
  colors : List String
  lineWidth : ℚ
  background : String
  showText : Bool
  textSize : Option ℚ
  figW : ℚ
  figH : ℚ
deriving DecidableEq, Repr

/-- Smaller of two rectangles' bounds, larger of their upper bounds. -/
def unionRect (r q : Rect) : Rect :=
  ⟨min r.minx q.minx, min r.miny q.miny, max r.maxx q.maxx, max r.maxy q.maxy⟩

/-- Bounding extent of a contour set (GeometryStore, §4.1). -/
def extentOf (segs : List Seg) : Rect :=
  match segs with
  | [] => ⟨0, 0, 0, 0⟩
  | s :: rest => rest.foldl (fun r s2 => unionRect r (bbox s2)) (bbox s)

/-- Adaptive text sizing (§4.6): scales with the overall figure size unless a
caller override is present. -/
def textSizeFor (req : DesignRequest) : ℚ :=
  match req.textSize with
  | some sz => sz
  | none => req.figW * 3

/-- One primitive drawing operation on the composed canvas. -/
inductive DrawOp where
  | panelBg (color : String) (r : Rect)
  | line (color : String) (width : ℚ) (s : Seg)
  | text (content : String) (x y : ℚ) (color : String) (family : String)
      (weight : String) (halign : String) (size : ℚ) (zorder : ℕ)
deriving DecidableEq, Repr

def isTextOp : DrawOp → Bool
  | .text .. => true
  | _ => false

/-- Panel drawing: each region's background followed by its clipped contour
linework in that region's palette color. -/
def panelOps (req : DesignRequest) (regions : List BlockRegion) (cols : List String) :
    List DrawOp :=
  ((regions.zip cols).map (fun rc =>
    DrawOp.panelBg req.background rc.1.rect ::
      (clipRegion (buildIndex req.contours) rc.1.rect).map
        (fun s2 => DrawOp.line rc.2 req.lineWidth s2))).flatten

/-- Modelled from the spec: the mountain-name label (Renderer §4.6 and
`topo-blocks/CHANGES.md`): right-aligned at `x = maxx`, at
`y = miny - 0.02 * height`, white, normal weight, z-order 10, in the
process-wide font family. -/
def labelOp (req : DesignRequest) (e : Rect) (fam : String) : DrawOp :=
  DrawOp.text req.name e.maxx (e.miny - (e.maxy - e.miny) * (2 / 100))
    "white" fam "normal" "right" (textSizeFor req) 10

/-- Modelled from the spec: the drawing stage of the Renderer (§4.6): the three
panels, then the optional label drawn on top. -/
def drawOps (req : DesignRequest) (regions : List BlockRegion) (cols : List String)
    (fam : String) : List DrawOp :=
  panelOps req regions cols ++
    (if req.showText then [labelOp req (extentOf req.contours) fam] else [])

/-- Modelled from the spec: the single-request pipeline up to the composed
canvas (§2 data flow): geometry validation, partitioning, palette validation,
then drawing. -/
def designOps (req : DesignRequest) (fam : String) : Except DesignError (List DrawOp) :=
  if req.contours.isEmpty then .error .invalidInput
  else
    match partitionBlocks (extentOf req.contours) req.gap with
    | .error er => .error er
    | .ok regions =>
      match validateCustomPalette req.colors with
      | .error er => .error er
      | .ok cols => .ok (drawOps req regions cols fam)

/-- Ambient process-wide rendering configuration (spec §9: the original code
sets a process-wide font family before drawing). -/
structure GlobalConfig where
  fontFamily : String
deriving DecidableEq, Repr

/-- The pipeline sets the process-wide font family to serif before drawing. -/
def setGlobalFont (_ : GlobalConfig) : GlobalConfig := ⟨"serif"⟩

/-- Modelled from the spec: one end-to-end render of a DesignRequest, explicit
about the ambient global font state it reads and writes. -/
def renderDesign (req : DesignRequest) (g : GlobalConfig) :
    Except DesignError (List DrawOp) × GlobalConfig :=
  (designOps req (setGlobalFont g).fontFamily, setGlobalFont g)

/-- Replace only the configured background color of a request. -/
def setBackground (req : DesignRequest) (bg : String) : DesignRequest :=
  ⟨req.name, req.contours, req.gap, req.colors, req.lineWidth, bg,
    req.showText, req.textSize, req.figW, req.figH⟩

/-- Injected success/failure of the effectful rendering steps, so the file
discipline can be stated over every failure point. -/
structure RenderEnv where
  drawRegionsOk : Bool
  drawTextOk : Bool
  saveOk : Bool
deriving DecidableEq, Repr

/-- Modelled from the spec: the Renderer's file side effect (§4.6): the canvas
is composed fully in memory; the output file appears only in the final save
step, and a failing save removes the partial file. Returns the outcome and the
resulting file system (a list of paths). -/
def writeImage (env : RenderEnv) (req : DesignRequest) (path : String)
    (fs : List String) : Except DesignError Unit × List String :=
  match designOps req "serif" with
  | .error er => (.error er, fs)
  | .ok _ =>
    if ¬ env.drawRegionsOk then (.error .renderError, fs)
    else if req.showText ∧ ¬ env.drawTextOk then (.error .renderError, fs)
    else if env.saveOk then (.ok (), path :: fs)
    else (.error .renderError, (path :: fs).erase path)

/-- Per-(mountain, palette) outcome of a batch run (§3 BatchResult). -/
inductive BatchResult where
  | success (mountain : String) (path : String)
  | failure (mountain : String) (err : DesignError)
deriving DecidableEq, Repr

def isSuccess : BatchResult → Bool
  | .success .. => true
  | _ => false

def isFailure : BatchResult → Bool
  | .failure .. => true
  | _ => false

/-- One mountain's batch input: its name and the outcome of loading its contour
source (a missing input file loads as `MissingFileError`). -/
structure MountainInput where
  name : String
  contours : Except DesignError (List Seg)
deriving Repr

/-- Batch output naming convention (§6). -/
def outputName (mountain pal : String) : String :=
  mountain ++ "_" ++ pal ++ ".png"

/-- The design request the batch layer builds for one mountain. -/
def mkRequest (name : String) (segs : List Seg) (gap : ℚ) (cols : List String) :
    DesignRequest :=
  ⟨name, segs, gap, cols, 1, "white", true, none, 12, 9⟩

/-- Modelled from the spec: per-pair processing in the BatchOrchestrator
(§4.7): every pipeline error is caught and converted into a failure entry
carrying the error kind. -/
def processMountain (gap : ℚ) (palName : String) (inp : MountainInput) : BatchResult :=
  match inp.contours with
  | .error er => .failure inp.name er
  | .ok segs =>
    match lookupPalette palName with
    | .error er => .failure inp.name er
    | .ok cols =>
      match designOps (mkRequest inp.name segs gap cols) "serif" with
      | .error er => .failure inp.name er
      | .ok _ => .success inp.name (outputName inp.name palName)

/-- Modelled from the spec: BatchOrchestrator (§4.7): processes every pair
independently and returns the aggregate report; it is a total function, so the
batch call itself never raises. -/
def batchProcess (gap : ℚ) (palName : String) (inputs : List MountainInput) :
    List BatchResult :=
  inputs.map (processMountain gap palName)

lemma regionRect_sep (e : Rect) (g : ℚ) (hw : 0 < e.maxx - e.minx)
    (hg0 : 0 ≤ g) (hg1 : g < 1 / 2) (i j : ℕ) (hij : i < j) :
    (regionRect e g i).maxx ≤ (regionRect e g j).minx := by
  unfold regionRect blockW gapW
  dsimp only
  have hcast : (i : ℚ) + 1 ≤ (j : ℚ) := by exact_mod_cast hij
  have h2g : (0 : ℚ) < 1 - 2 * g := by linarith
  have hbw : 0 < (e.maxx - e.minx) * (1 - 2 * g) / 3 :=
    div_pos (mul_pos hw h2g) (by norm_num)
  have hgw : 0 ≤ (e.maxx - e.minx) * g := mul_nonneg (le_of_lt hw) hg0
  have hstep := mul_le_mul_of_nonneg_right hcast (by linarith :
    (0 : ℚ) ≤ (e.maxx - e.minx) * (1 - 2 * g) / 3 + (e.maxx - e.minx) * g)
  nlinarith [hstep]

lemma regionRect_sep_strict (e : Rect) (g : ℚ) (hw : 0 < e.maxx - e.minx)
    (hgpos : 0 < g) (hg1 : g < 1 / 2) (i j : ℕ) (hij : i < j) :
    (regionRect e g i).maxx < (regionRect e g j).minx := by
  unfold regionRect blockW gapW
  dsimp only
  have hcast : (i : ℚ) + 1 ≤ (j : ℚ) := by exact_mod_cast hij
  have h2g : (0 : ℚ) < 1 - 2 * g := by linarith
  have hbw : 0 < (e.maxx - e.minx) * (1 - 2 * g) / 3 :=
    div_pos (mul_pos hw h2g) (by norm_num)
  have hgw : 0 < (e.maxx - e.minx) * g := mul_pos hw hgpos
  have hstep := mul_le_mul_of_nonneg_right hcast (by linarith :
    (0 : ℚ) ≤ (e.maxx - e.minx) * (1 - 2 * g) / 3 + (e.maxx - e.minx) * g)
  nlinarith [hstep]

/-- Claim C1: for every extent of positive width and height and every
gap fraction in [0, 0.5), the BlockPartitioner yields exactly three
sub-rectangles with ids 0, 1, 2, pairwise non-overlapping, with region 0
leftmost on the x axis and the region bounds increasing along it, whose
combined area is the extent's area minus the configured gap area. -/
theorem blockPartitioner_three_disjoint_blocks (e : Rect) (g : ℚ)
    (hw : 0 < e.maxx - e.minx) (hh : 0 < e.maxy - e.miny)
    (hg0 : 0 ≤ g) (hg1 : g < 1 / 2) :
    partitionBlocks e g =
      .ok [⟨0, regionRect e g 0⟩, ⟨1, regionRect e g 1⟩, ⟨2, regionRect e g 2⟩] ∧
    (∀ i j : ℕ, i ≠ j → ¬ rectOverlap (regionRect e g i) (regionRect e g j)) ∧
    (regionRect e g 0).minx = e.minx ∧
    (∀ i j : ℕ, i < j → (regionRect e g i).maxx ≤ (regionRect e g j).minx) ∧
    rectArea (regionRect e g 0) + rectArea (regionRect e g 1) + rectArea (regionRect e g 2)
      = rectArea e - gapArea e g := by
  refine ⟨?_, ?_, ?_, ?_, ?_⟩
  · unfold partitionBlocks
    rw [if_neg (not_not_intro ⟨hg0, hg1⟩),
      if_neg (by rw [not_or]; exact ⟨not_le.mpr hw, not_le.mpr hh⟩)]
    rfl
  · intro i j hne hov
    rcases Nat.lt_or_ge i j with hij | hij
    · exact absurd hov.2.1 (not_lt.mpr (regionRect_sep e g hw hg0 hg1 i j hij))
    · have hji : j < i := lt_of_le_of_ne hij (Ne.symm hne)
      exact absurd hov.1 (not_lt.mpr (regionRect_sep e g hw hg0 hg1 j i hji))
  · simp [regionRect]
  · exact fun i j hij => regionRect_sep e g hw hg0 hg1 i j hij
  · unfold rectArea regionRect gapArea rectArea blockW gapW
    dsimp only
    push_cast
    ring

/-- Witness for C1 at the spec's example extent (0,0)-(100,50) with
gap fraction 0.05. -/
theorem blockPartitioner_three_disjoint_blocks_witness :
    partitionBlocks ⟨0, 0, 100, 50⟩ (1 / 20) =
      .ok [⟨0, regionRect ⟨0, 0, 100, 50⟩ (1 / 20) 0⟩,
        ⟨1, regionRect ⟨0, 0, 100, 50⟩ (1 / 20) 1⟩,
        ⟨2, regionRect ⟨0, 0, 100, 50⟩ (1 / 20) 2⟩] :=
  (blockPartitioner_three_disjoint_blocks ⟨0, 0, 100, 50⟩ (1 / 20)
    (by norm_num) (by norm_num) (by norm_num) (by norm_num)).1

/-- Claim C6: a gap fraction at or above 0.5 is rejected with
`InvalidConfigError`; an otherwise valid gap fraction with a zero-width or
zero-height extent is rejected with `InvalidBoundsError`. -/
theorem blockPartitioner_rejects_bad_inputs (e : Rect) (g : ℚ) :
    (1 / 2 ≤ g → partitionBlocks e g = .error .invalidConfig) ∧
    (0 ≤ g → g < 1 / 2 → (e.maxx - e.minx = 0 ∨ e.maxy - e.miny = 0) →
      partitionBlocks e g = .error .invalidBounds) := by
  constructor
  · intro hg
    unfold partitionBlocks
    rw [if_pos (fun hc => absurd hc.2 (not_lt.mpr hg))]
  · intro hg0 hg1 hzero
    unfold partitionBlocks
    rw [if_neg (not_not_intro ⟨hg0, hg1⟩), if_pos]
    rcases hzero with hz | hz
    · exact Or.inl (le_of_eq hz)
    · exact Or.inr (le_of_eq hz)

/-- Witness for C6: gap 0.75 is rejected as configuration, a zero-height
extent is rejected as bounds. -/
theorem blockPartitioner_rejects_bad_inputs_witness :
    partitionBlocks ⟨0, 0, 100, 50⟩ (3 / 4) = .error .invalidConfig ∧
    partitionBlocks ⟨0, 0, 100, 0⟩ (1 / 20) = .error .invalidBounds :=
  ⟨(blockPartitioner_rejects_bad_inputs ⟨0, 0, 100, 50⟩ (3 / 4)).1 (by norm_num),
   (blockPartitioner_rejects_bad_inputs ⟨0, 0, 100, 0⟩ (1 / 20)).2 (by norm_num)
     (by norm_num) (Or.inr (by norm_num))⟩

/-- Claim C5: a custom palette with other than 3 entries is rejected with
`InvalidPaletteError`, and looking up a name absent from the catalog registry
fails with `UnknownPaletteError`. -/
theorem paletteCatalog_validation (cols : List String) (n : String) :
    (cols.length ≠ 3 → validateCustomPalette cols = .error .invalidPalette) ∧
    ((∀ en ∈ paletteCatalog, en.1 ≠ n) → lookupPalette n = .error .unknownPalette) := by
  constructor
  · intro h
    unfold validateCustomPalette
    rw [if_neg h]
  · intro h
    unfold lookupPalette
    have hnone : paletteCatalog.find? (fun en => en.1 == n) = none := by
      rw [List.find?_eq_none]
      intro x hx
      simpa using h x hx
    rw [hnone]

/-- Witness for C5: a 1-entry custom palette and the unregistered name
"sunset". -/
theorem paletteCatalog_validation_witness :
    validateCustomPalette ["#FF0000"] = .error .invalidPalette ∧
    lookupPalette "sunset" = .error .unknownPalette :=
  ⟨(paletteCatalog_validation ["#FF0000"] "sunset").1 (by decide),
   (paletteCatalog_validation ["#FF0000"] "sunset").2 (by decide)⟩

/-- Claim C2 (amended): truncation-based clipping of a contour segment against
the three block regions.  The clipper is the index-prefiltered truncation of
every geometry; a segment inside region i is returned unchanged for region i;
when the gap is positive it contributes nothing to any other region; a segment
outside all three regions contributes nothing anywhere; and a point of the
original geometry lies on region i's clipped output exactly when it lies in
region i's rectangle (so with a positive gap no portion is duplicated, while at
gap 0 geometry on a shared boundary belongs to both adjacent regions). -/
theorem contourClipper_region_clipping (e : Rect) (g : ℚ)
    (hw : 0 < e.maxx - e.minx) (hh : 0 < e.maxy - e.miny)
    (hg0 : 0 ≤ g) (hg1 : g < 1 / 2) (s : Seg) :
    (∀ (segs : List Seg) (r : Rect),
      clipRegion (buildIndex segs) r = segs.filterMap (clipSeg r)) ∧
    (∀ i : ℕ, inRect (regionRect e g i) s.a → inRect (regionRect e g i) s.b →
      clipSeg (regionRect e g i) s = some s) ∧
    (0 < g → ∀ i j : ℕ, i ≠ j → inRect (regionRect e g i) s.a →
      inRect (regionRect e g i) s.b → clipSeg (regionRect e g j) s = none) ∧
    ((∀ t, 0 ≤ t → t ≤ 1 → ∀ i, i < 3 → ¬ inRect (regionRect e g i) (pointAt s t)) →
      ∀ i, i < 3 → clipSeg (regionRect e g i) s = none) ∧
    (∀ i : ℕ, ∀ t, 0 ≤ t → t ≤ 1 →
      (inRect (regionRect e g i) (pointAt s t) ↔
        ∃ s', clipSeg (regionRect e g i) s = some s' ∧ onSeg s' (pointAt s t))) := by
  refine ⟨clipRegion_eq_filterMap, ?_, ?_, ?_, ?_⟩
  · exact fun i ha hb => clipSeg_of_inside _ s ha hb
  · intro hgpos i j hne ha hb
    apply clipSeg_eq_none
    intro t h0 h1 hinj
    have hini := rect_convex _ s ha hb t h0 h1
    rcases Nat.lt_or_ge i j with hij | hij
    · have hsep := regionRect_sep_strict e g hw hgpos hg1 i j hij
      linarith [hini.2.1, hinj.1, hsep]
    · have hji : j < i := lt_of_le_of_ne hij (Ne.symm hne)
      have hsep := regionRect_sep_strict e g hw hgpos hg1 j i hji
      linarith [hinj.2.1, hini.1, hsep]
  · intro h i hi
    exact clipSeg_eq_none _ _ (fun t h0 h1 => h t h0 h1 i hi)
  · exact fun i t h0 h1 => mem_clip_iff (regionRect e g i) s t h0 h1

/-- Witness for C2 at extent (0,0)-(3,1) with gap 0.25: a segment inside
region 0 is clipped to itself. -/
theorem contourClipper_region_clipping_witness :
    clipSeg (regionRect ⟨0, 0, 3, 1⟩ (1 / 4) 0) ⟨⟨0, 0⟩, ⟨1 / 4, 1 / 2⟩⟩ =
      some ⟨⟨0, 0⟩, ⟨1 / 4, 1 / 2⟩⟩ :=
  (contourClipper_region_clipping ⟨0, 0, 3, 1⟩ (1 / 4) (by norm_num) (by norm_num)
    (by norm_num) (by norm_num) ⟨⟨0, 0⟩, ⟨1 / 4, 1 / 2⟩⟩).2.1 0
    (of_decide_eq_true (by with_unfolding_all rfl))
    (of_decide_eq_true (by with_unfolding_all rfl))

/-- Counterexample to claim C2 as stated: at the admissible gap fraction 0, the
segment from (1,0) to (1,1) lies entirely inside region 0 of extent (0,0)-(3,1)
yet region 1's clipped output contains it in full, so a geometry inside one
region can appear in another region's output and be duplicated. -/
theorem contourClipper_boundary_duplication_cex :
    (0 : ℚ) ≤ 0 ∧ (0 : ℚ) < 1 / 2 ∧
    inRect (regionRect ⟨0, 0, 3, 1⟩ 0 0) (⟨1, 0⟩ : Pt) ∧
    inRect (regionRect ⟨0, 0, 3, 1⟩ 0 0) (⟨1, 1⟩ : Pt) ∧
    clipSeg (regionRect ⟨0, 0, 3, 1⟩ 0 1) ⟨⟨1, 0⟩, ⟨1, 1⟩⟩ =
      some ⟨⟨1, 0⟩, ⟨1, 1⟩⟩ := by
  refine ⟨by norm_num, by norm_num, ?_, ?_, ?_⟩
  · exact of_decide_eq_true (by with_unfolding_all rfl)
  · exact of_decide_eq_true (by with_unfolding_all rfl)
  · with_unfolding_all rfl

/-- Claim C3: the spatial index query returns every geometry whose bounding box
intersects the query rectangle, and filtering its candidates by the exact
intersection test gives exactly the brute-force exact-intersection scan. -/
theorem spatialIndex_superset_prefilter (segs : List Seg) (r : Rect) :
    (∀ s ∈ segs, rectsIntersect r (bbox s) = true → s ∈ (buildIndex segs).query r) ∧
    ((buildIndex segs).query r).filter (fun s => segIntersects r s) =
      segs.filter (fun s => segIntersects r s) := by
  constructor
  · intro s hs hbb
    rw [query_buildIndex]
    exact List.mem_filter.mpr ⟨hs, hbb⟩
  · rw [query_buildIndex, List.filter_filter]
    apply List.filter_congr
    intro s hs
    cases hsi : segIntersects r s
    · simp
    · simp [segIntersects_imp_bbox r s hsi]

/-- Witness for C3: a diagonal segment whose bounding box meets the query
rectangle is returned by the index query. -/
theorem spatialIndex_superset_prefilter_witness :
    (⟨⟨0, 0⟩, ⟨1, 1⟩⟩ : Seg) ∈ (buildIndex [⟨⟨0, 0⟩, ⟨1, 1⟩⟩]).query ⟨0, 0, 2, 2⟩ :=
  (spatialIndex_superset_prefilter [⟨⟨0, 0⟩, ⟨1, 1⟩⟩] ⟨0, 0, 2, 2⟩).1
    ⟨⟨0, 0⟩, ⟨1, 1⟩⟩ (by decide) (by decide)

/-- Claim C10: the flat registry contains exactly the 16 named palettes in the
documented order, built as four groups of four. -/
lemma isFailure_eq_false_of_isSuccess (r : BatchResult) (h : isSuccess r = true) :
    isFailure r = false := by
  cases r with
  | success m p => rfl
  | failure m er => simp [isSuccess] at h

/-- Claim C4: a batch in which one mountain's input file is missing and every
other mountain succeeds yields N-1 successes and exactly one failure entry
naming that mountain with the `MissingFileError` kind; the batch function is
total, so the call itself does not raise. -/
theorem batchOrchestrator_isolates_failure (gap : ℚ) (palName : String)
    (pre post : List MountainInput) (bad : MountainInput)
    (hbad : bad.contours = .error .missingFile)
    (hpre : ∀ x ∈ pre, isSuccess (processMountain gap palName x) = true)
    (hpost : ∀ x ∈ post, isSuccess (processMountain gap palName x) = true) :
    (batchProcess gap palName (pre ++ bad :: post)).length =
      pre.length + 1 + post.length ∧
    ((batchProcess gap palName (pre ++ bad :: post)).filter isSuccess).length =
      pre.length + post.length ∧
    (batchProcess gap palName (pre ++ bad :: post)).filter isFailure =
      [.failure bad.name .missingFile] := by
  have hfbad : processMountain gap palName bad = .failure bad.name .missingFile := by
    unfold processMountain
    rw [hbad]
  have hmap : batchProcess gap palName (pre ++ bad :: post) =
      pre.map (processMountain gap palName) ++ processMountain gap palName bad ::
        post.map (processMountain gap palName) := by
    unfold batchProcess
    rw [List.map_append, List.map_cons]
  have hself1 : (pre.map (processMountain gap palName)).filter isSuccess =
      pre.map (processMountain gap palName) := by
    rw [List.filter_eq_self]
    intro b hb
    obtain ⟨x, hx, hbx⟩ := List.mem_map.mp hb
    rw [← hbx]
    exact hpre x hx
  have hself2 : (post.map (processMountain gap palName)).filter isSuccess =
      post.map (processMountain gap palName) := by
    rw [List.filter_eq_self]
    intro b hb
    obtain ⟨x, hx, hbx⟩ := List.mem_map.mp hb
    rw [← hbx]
    exact hpost x hx
  have hnil1 : (pre.map (processMountain gap palName)).filter isFailure = [] := by
    rw [List.filter_eq_nil_iff]
    intro b hb
    obtain ⟨x, hx, hbx⟩ := List.mem_map.mp hb
    rw [← hbx, isFailure_eq_false_of_isSuccess _ (hpre x hx)]
    simp
  have hnil2 : (post.map (processMountain gap palName)).filter isFailure = [] := by
    rw [List.filter_eq_nil_iff]
    intro b hb
    obtain ⟨x, hx, hbx⟩ := List.mem_map.mp hb
    rw [← hbx, isFailure_eq_false_of_isSuccess _ (hpost x hx)]
    simp
  refine ⟨?_, ?_, ?_⟩
  · rw [hmap]
    simp only [List.length_append, List.length_cons, List.length_map]
    omega
  · rw [hmap, List.filter_append, List.filter_cons, hfbad, hself1,
      show isSuccess (BatchResult.failure bad.name DesignError.missingFile) = false from rfl,
      if_neg Bool.false_ne_true, hself2]
    simp only [List.length_append, List.length_map]
  · rw [hmap, List.filter_append, List.filter_cons, hfbad, hnil1,
      if_pos (show isFailure (BatchResult.failure bad.name DesignError.missingFile) = true
        from rfl), hnil2]
    rfl

/-- Witness for C4: three mountains, the middle one with a missing input file,
the outer two processing successfully under the catalog's black palette. -/
theorem batchOrchestrator_isolates_failure_witness :
    (batchProcess 0 "black"
      [⟨"alpha", .ok [⟨⟨0, 0⟩, ⟨3, 1⟩⟩]⟩, ⟨"beta", .error .missingFile⟩,
       ⟨"gamma", .ok [⟨⟨0, 0⟩, ⟨6, 2⟩⟩]⟩]).length = 3 ∧
    ((batchProcess 0 "black"
      [⟨"alpha", .ok [⟨⟨0, 0⟩, ⟨3, 1⟩⟩]⟩, ⟨"beta", .error .missingFile⟩,
       ⟨"gamma", .ok [⟨⟨0, 0⟩, ⟨6, 2⟩⟩]⟩]).filter isSuccess).length = 2 ∧
    (batchProcess 0 "black"
      [⟨"alpha", .ok [⟨⟨0, 0⟩, ⟨3, 1⟩⟩]⟩, ⟨"beta", .error .missingFile⟩,
       ⟨"gamma", .ok [⟨⟨0, 0⟩, ⟨6, 2⟩⟩]⟩]).filter isFailure =
      [.failure "beta" .missingFile] :=
  batchOrchestrator_isolates_failure 0 "black"
    [⟨"alpha", .ok [⟨⟨0, 0⟩, ⟨3, 1⟩⟩]⟩] [⟨"gamma", .ok [⟨⟨0, 0⟩, ⟨6, 2⟩⟩]⟩]
    ⟨"beta", .error .missingFile⟩ rfl
    (by intro x hx
        simp only [List.mem_singleton] at hx
        subst hx
        with_unfolding_all rfl)
    (by intro x hx
        simp only [List.mem_singleton] at hx
        subst hx
        with_unfolding_all rfl)

/-- Claim C7: the renderer writes exactly one file (the requested path) when it
succeeds, and leaves the file system unchanged on any failure — the file is
either never created or removed by the failing save step. -/
theorem renderer_file_discipline (env : RenderEnv) (req : DesignRequest)
    (path : String) (fs : List String) :
    ((writeImage env req path fs).1 = .ok () →
      (writeImage env req path fs).2 = path :: fs) ∧
    (∀ er, (writeImage env req path fs).1 = .error er →
      (writeImage env req path fs).2 = fs) := by
  unfold writeImage
  cases hd : designOps req "serif" with
  | error er => exact ⟨(fun h => nomatch h), (fun er2 h => rfl)⟩
  | ok ops =>
    dsimp only
    split_ifs with h1 h2 h3 <;>
      refine ⟨fun h => ?_, fun er2 h => ?_⟩ <;>
        first
          | rfl
          | (show (path :: fs).erase path = fs
             rw [List.erase_cons_head])
          | exact absurd h (by simp)

/-- Witness for C7: with all steps succeeding, exactly the requested file is
added; with a failing save, the file system is unchanged. -/
theorem renderer_file_discipline_witness :
    (writeImage ⟨true, true, true⟩
      ⟨"Mt Adams", [⟨⟨0, 0⟩, ⟨3, 1⟩⟩], 0, ["#111111", "#222222", "#333333"],
        1, "white", true, none, 12, 9⟩ "out.png" []).2 = ["out.png"] ∧
    (writeImage ⟨true, true, false⟩
      ⟨"Mt Adams", [⟨⟨0, 0⟩, ⟨3, 1⟩⟩], 0, ["#111111", "#222222", "#333333"],
        1, "white", true, none, 12, 9⟩ "out.png" []).2 = [] :=
  ⟨(renderer_file_discipline ⟨true, true, true⟩
      ⟨"Mt Adams", [⟨⟨0, 0⟩, ⟨3, 1⟩⟩], 0, ["#111111", "#222222", "#333333"],
        1, "white", true, none, 12, 9⟩ "out.png" []).1
      (by with_unfolding_all rfl),
   (renderer_file_discipline ⟨true, true, false⟩
      ⟨"Mt Adams", [⟨⟨0, 0⟩, ⟨3, 1⟩⟩], 0, ["#111111", "#222222", "#333333"],
        1, "white", true, none, 12, 9⟩ "out.png" []).2 .renderError
      (by with_unfolding_all rfl)⟩

/-- Claim C8: the end-to-end render is a deterministic function of the request:
its canvas output does not depend on the ambient global font state, and an
immediate second render of the same request produces the identical output. -/
theorem renderer_deterministic (req : DesignRequest) (g1 g2 : GlobalConfig) :
    (renderDesign req g1).1 = (renderDesign req g2).1 ∧
    (renderDesign req (renderDesign req g1).2).1 = (renderDesign req g1).1 :=
  ⟨rfl, rfl⟩

lemma panelOps_no_text (req : DesignRequest) (regions : List BlockRegion)
    (cols : List String) : (panelOps req regions cols).filter isTextOp = [] := by
  rw [List.filter_eq_nil_iff]
  intro op hop
  unfold panelOps at hop
  rw [List.mem_flatten] at hop
  obtain ⟨l, hl, hopl⟩ := hop
  rw [List.mem_map] at hl
  obtain ⟨rc, hrc, hlrc⟩ := hl
  rw [← hlrc] at hopl
  rcases List.mem_cons.mp hopl with h | h
  · subst h
    simp [isTextOp]
  · rw [List.mem_map] at h
    obtain ⟨s2, hs2, hs2op⟩ := h
    rw [← hs2op]
    simp [isTextOp]

/-- Claim C9: with text display enabled, the successful render's only text
operation is the mountain-name label: white, serif, normal weight, z-order 10,
right-aligned at x = maxx and y = miny - 0.02 * height, and it is unchanged
under any change of the configured background color. -/
theorem renderer_label_style (req : DesignRequest) (g : GlobalConfig)
    (ops : List DrawOp) (hok : (renderDesign req g).1 = .ok ops)
    (hshow : req.showText = true) :
    ops.filter isTextOp =
      [DrawOp.text req.name (extentOf req.contours).maxx
        ((extentOf req.contours).miny -
          ((extentOf req.contours).maxy - (extentOf req.contours).miny) * (2 / 100))
        "white" "serif" "normal" "right" (textSizeFor req) 10] ∧
    ∀ bg, ∃ ops2, (renderDesign (setBackground req bg) g).1 = .ok ops2 ∧
      ops2.filter isTextOp = ops.filter isTextOp := by
  have hok' : designOps req "serif" = .ok ops := hok
  unfold designOps at hok'
  by_cases hemp : req.contours.isEmpty
  · rw [if_pos hemp] at hok'
    exact absurd hok' (by simp)
  · rw [if_neg hemp] at hok'
    cases hpart : partitionBlocks (extentOf req.contours) req.gap with
    | error er => rw [hpart] at hok'; exact absurd hok' (by simp)
    | ok regions =>
      rw [hpart] at hok'
      cases hpal : validateCustomPalette req.colors with
      | error er => rw [hpal] at hok'; exact absurd hok' (by simp)
      | ok cols =>
        rw [hpal] at hok'
        have hops : ops = drawOps req regions cols "serif" := by
          injection hok' with h
          exact h.symm
        have hfilter : (drawOps req regions cols "serif").filter isTextOp =
            [labelOp req (extentOf req.contours) "serif"] := by
          unfold drawOps
          rw [List.filter_append, panelOps_no_text, hshow]
          simp [isTextOp, labelOp]
        constructor
        · rw [hops, hfilter]
          rfl
        · intro bg
          refine ⟨drawOps (setBackground req bg) regions cols "serif", ?_, ?_⟩
          · show designOps (setBackground req bg) "serif" = _
            unfold designOps
            rw [show (setBackground req bg).contours = req.contours from rfl,
              show (setBackground req bg).gap = req.gap from rfl,
              show (setBackground req bg).colors = req.colors from rfl,
              if_neg hemp, hpart]
            dsimp only
            rw [hpal]
          · have hfilter2 : (drawOps (setBackground req bg) regions cols "serif").filter
                isTextOp = [labelOp (setBackground req bg)
                  (extentOf (setBackground req bg).contours) "serif"] := by
              unfold drawOps
              rw [List.filter_append, panelOps_no_text,
                (show (setBackground req bg).showText = true from hshow)]
              simp [isTextOp, labelOp]
            rw [hops, hfilter, hfilter2]
            rfl

/-- Witness for C9 at a concrete request: the single text op and its fixed
style, with an ambient sans global font overridden to serif. -/
theorem renderer_label_style_witness :
    ∃ ops, (renderDesign
      ⟨"Mt Adams", [⟨⟨0, 0⟩, ⟨3, 1⟩⟩], 0, ["#111111", "#222222", "#333333"],
        1, "white", true, some 48, 12, 9⟩ ⟨"sans"⟩).1 = .ok ops ∧
      ops.filter isTextOp =
        [DrawOp.text "Mt Adams" 3 (-(1 / 50)) "white" "serif" "normal" "right" 48 10] := by
  refine ⟨_, (by with_unfolding_all rfl :
    (renderDesign ⟨"Mt Adams", [⟨⟨0, 0⟩, ⟨3, 1⟩⟩], 0,
      ["#111111", "#222222", "#333333"], 1, "white", true, some 48, 12, 9⟩
      ⟨"sans"⟩).1 = .ok (drawOps
        ⟨"Mt Adams", [⟨⟨0, 0⟩, ⟨3, 1⟩⟩], 0, ["#111111", "#222222", "#333333"],
          1, "white", true, some 48, 12, 9⟩
        [⟨0, regionRect ⟨0, 0, 3, 1⟩ 0 0⟩, ⟨1, regionRect ⟨0, 0, 3, 1⟩ 0 1⟩,
          ⟨2, regionRect ⟨0, 0, 3, 1⟩ 0 2⟩]
        ["#111111", "#222222", "#333333"] "serif")), ?_⟩
  have h := (renderer_label_style
    ⟨"Mt Adams", [⟨⟨0, 0⟩, ⟨3, 1⟩⟩], 0, ["#111111", "#222222", "#333333"],
      1, "white", true, some 48, 12, 9⟩ ⟨"sans"⟩ _
    (by with_unfolding_all rfl :
      (renderDesign ⟨"Mt Adams", [⟨⟨0, 0⟩, ⟨3, 1⟩⟩], 0,
        ["#111111", "#222222", "#333333"], 1, "white", true, some 48, 12, 9⟩
        ⟨"sans"⟩).1 = .ok (drawOps
          ⟨"Mt Adams", [⟨⟨0, 0⟩, ⟨3, 1⟩⟩], 0, ["#111111", "#222222", "#333333"],
            1, "white", true, some 48, 12, 9⟩
          [⟨0, regionRect ⟨0, 0, 3, 1⟩ 0 0⟩, ⟨1, regionRect ⟨0, 0, 3, 1⟩ 0 1⟩,
            ⟨2, regionRect ⟨0, 0, 3, 1⟩ 0 2⟩]
          ["#111111", "#222222", "#333333"] "serif")) rfl).1
  rw [h]
  with_unfolding_all rfl

/-- Claim C10: the flat registry contains exactly the 16 named palettes in the
documented order, built as four groups of four. -/
theorem paletteCatalog_sixteen_named_groups :
    paletteCatalog.map Prod.fst =
      ["black", "charcoal", "white", "navy", "desert", "clay", "sage", "stone",
       "autumn", "forest", "ocean", "burgundy", "indigo", "rust", "pine", "plum"] ∧
    paletteCatalog.length = 16 ∧
    paletteCatalog =
      monochromePalettes ++ earthTonePalettes ++ tetradicPalettes ++ gradientPalettes ∧
    monochromePalettes.length = 4 ∧ earthTonePalettes.length = 4 ∧
    tetradicPalettes.length = 4 ∧ gradientPalettes.length = 4 :=
  ⟨rfl, rfl, rfl, rfl, rfl, rfl, rfl⟩

end MapPrep
